import Mathlib

/-!
Verification of the Databricks custom MCP tool server
(`examples/custom-server/src/custom_server/app.py`).

The Python module wraps a remote `WorkspaceClient` in six tool functions
(`list_databricks_apps`, `download_workspace_file`, `upload_workspace_file`,
`redeploy_databricks_app`, `start_databricks_app`, `stop_databricks_app`)
plus the trivial `add` and `get_greeting`.  Each wrapper issues remote calls
and normalises the outcome into a Python dict.

Shallow embedding conventions:
- a Python `str` is `PyStr := List Nat` (its sequence of Unicode code points);
- `bytes` is `List Nat` (values `< 256`);
- a Python dict result is an association list `List (String × Value)`;
- every remote-client operation that can raise returns `Except PyStr _`,
  the error carrying `str(e)`;
- the CPython library routines the code calls (`str.encode("utf-8")`,
  `bytes.decode("utf-8")`, `base64.b64encode`, `base64.b64decode`) are
  embedded below following their documented/CPython semantics.
-/

/-- A Python `str`: list of Unicode code points. -/
abbrev PyStr := List Nat

/-- A Python `bytes` value: list of byte values. -/
abbrev Bytes := List Nat

/-- Code-point view of a Lean string literal, for embedding Python string
literals. -/
def pstr (s : String) : PyStr := s.data.map Char.toNat

/-- Values stored in the result dictionaries produced by the wrappers. -/
inductive Value where
  | str : PyStr → Value
  | bool : Bool → Value
  | nat : Nat → Value
  | null : Value
deriving DecidableEq, Repr

/-- A Python dict result, as an association list in insertion order. -/
abbrev Dict := List (String × Value)

/-- Dictionary key lookup (`d[k]` presence test / access). -/
def getKey (d : Dict) (k : String) : Option Value :=
  (d.find? (fun kv => kv.1 == k)).map (fun kv => kv.2)

/-- `None`-tolerant injection of an optional string attribute into a dict
value (Python `None` becomes `Value.null`). -/
def optStrVal : Option PyStr → Value
  | some s => Value.str s
  | none => Value.null

/-- A code point is a Unicode scalar value: encodable by `str.encode("utf-8")`
(surrogates are rejected by CPython with `UnicodeEncodeError`). -/
def ScalarCp (n : Nat) : Prop := n < 0x110000 ∧ ¬(0xD800 ≤ n ∧ n < 0xE000)

instance (n : Nat) : Decidable (ScalarCp n) := by
  unfold ScalarCp; infer_instance

/-- All code points of a Python string are Unicode scalar values. -/
def ValidStr (s : PyStr) : Prop := ∀ c ∈ s, ScalarCp c

instance (s : PyStr) : Decidable (ValidStr s) := by
  unfold ValidStr; exact List.decidableBAll _ s

/-- UTF-8 encoding of one Unicode scalar value. -/
def encodeChar (n : Nat) : List Nat :=
  if n < 0x80 then [n]
  else if n < 0x800 then [0xC0 + n / 64, 0x80 + n % 64]
  else if n < 0x10000 then [0xE0 + n / 4096, 0x80 + n / 64 % 64, 0x80 + n % 64]
  else [0xF0 + n / 262144, 0x80 + n / 4096 % 64, 0x80 + n / 64 % 64, 0x80 + n % 64]

/-- UTF-8 encoding of a whole string (`str.encode("utf-8")`, successful
case). -/
def utf8Encode (s : PyStr) : Bytes := s.flatMap encodeChar

/-- `content.encode("utf-8")`: raises `UnicodeEncodeError` on lone
surrogates, otherwise yields the UTF-8 bytes. -/
def utf8EncodeE (s : PyStr) : Except PyStr Bytes :=
  if ValidStr s then Except.ok (utf8Encode s)
  else Except.error (pstr "UnicodeEncodeError: surrogates not allowed")

/-- Is `b` a UTF-8 continuation byte? -/
def isCont (b : Nat) : Bool := 0x80 ≤ b && b < 0xC0

/-- Tail of a two-byte UTF-8 sequence with lead byte `b` (`0xC2 ≤ b < 0xE0`,
so no overlong form is possible). -/
def decode2 (b : Nat) : Bytes → Option (Nat × Bytes)
  | b1 :: rest1 =>
    if isCont b1 then some ((b - 0xC0) * 64 + (b1 - 0x80), rest1) else none
  | [] => none

/-- Tail of a three-byte UTF-8 sequence with lead byte `b` (`0xE0 ≤ b <
0xF0`); rejects overlong forms and surrogates. -/
def decode3 (b : Nat) : Bytes → Option (Nat × Bytes)
  | b1 :: b2 :: rest2 =>
    if isCont b1 && isCont b2 then
      let n := (b - 0xE0) * 4096 + (b1 - 0x80) * 64 + (b2 - 0x80)
      if n < 0x800 || (0xD800 ≤ n && n < 0xE000) then none
      else some (n, rest2)
    else none
  | _ => none

/-- Tail of a four-byte UTF-8 sequence with lead byte `b` (`0xF0 ≤ b <
0xF5`); rejects overlong forms and values beyond `U+10FFFF`. -/
def decode4 (b : Nat) : Bytes → Option (Nat × Bytes)
  | b1 :: b2 :: b3 :: rest3 =>
    if isCont b1 && isCont b2 && isCont b3 then
      let n := (b - 0xF0) * 262144 + (b1 - 0x80) * 4096 +
        (b2 - 0x80) * 64 + (b3 - 0x80)
      if n < 0x10000 || 0x110000 ≤ n then none
      else some (n, rest3)
    else none
  | _ => none

/-- Decode one UTF-8 scalar value from the front of a byte string; strict:
continuation-byte leads (`0x80`-`0xBF`), the overlong leads `0xC0`/`0xC1`
and the out-of-range leads `0xF5`-`0xFF` are rejected. -/
def decodeOne : Bytes → Option (Nat × Bytes)
  | [] => none
  | b :: rest =>
    if b < 0x80 then some (b, rest)
    else if b < 0xC2 then none
    else if b < 0xE0 then decode2 b rest
    else if b < 0xF0 then decode3 b rest
    else if b < 0xF5 then decode4 b rest
    else none

/-- Fuel-driven decoding loop; `decodeOne` consumes at least one byte per
step, so fuel equal to the byte length never runs out. -/
def utf8DecodeAux : Nat → Bytes → Option PyStr
  | _, [] => some []
  | 0, _ :: _ => none
  | fuel + 1, b :: rest =>
    match decodeOne (b :: rest) with
    | none => none
    | some nr => (utf8DecodeAux fuel nr.2).map (fun s => nr.1 :: s)

/-- Strict UTF-8 decoding (`bytes.decode("utf-8")`): rejects truncated
sequences, continuation-byte leads, overlong forms, surrogates and
out-of-range values; `none` models `UnicodeDecodeError`. -/
def utf8Decode (l : Bytes) : Option PyStr := utf8DecodeAux l.length l

/-- Code point of the base64 digit for a 6-bit value (`A-Za-z0-9+/`). -/
def b64char (n : Nat) : Nat :=
  if n < 26 then 65 + n
  else if n < 52 then 97 + (n - 26)
  else if n < 62 then 48 + (n - 52)
  else if n = 62 then 43
  else 47

/-- Canonical base64 encoding with padding
(`base64.b64encode(bs).decode("ascii")`). -/
def b64encode : Bytes → PyStr
  | [] => []
  | [a] => [b64char (a / 4), b64char (a % 4 * 16), 61, 61]
  | [a, b] => [b64char (a / 4), b64char (a % 4 * 16 + b / 16),
      b64char (b % 16 * 4), 61]
  | a :: b :: c :: rest =>
    b64char (a / 4) :: b64char (a % 4 * 16 + b / 16) ::
      b64char (b % 16 * 4 + c / 64) :: b64char (c % 64) :: b64encode rest

/-- Value of a base64 alphabet character; `none` for characters CPython
discards in non-strict mode. -/
def b64val (c : Nat) : Option Nat :=
  if 65 ≤ c ∧ c ≤ 90 then some (c - 65)
  else if 97 ≤ c ∧ c ≤ 122 then some (c - 71)
  else if 48 ≤ c ∧ c ≤ 57 then some (c + 4)
  else if c = 43 then some 62
  else if c = 47 then some 63
  else none

/-- CPython `binascii.a2b_base64` (non-strict mode), as a state machine over
the input characters.  State: `quad_pos` (position in the current 6-bit
quadruple), `leftchar` (pending bits), `pads` (consecutive pad count), `acc`
(output bytes, reversed).  A pad character completing a quadruple ends
decoding successfully; leftover `quad_pos ≠ 0` at end of input raises. -/
def a2b : List Nat → Nat → Nat → Nat → Bytes → Except PyStr Bytes
  | [], quad_pos, _, _, acc =>
    if quad_pos = 0 then Except.ok acc.reverse
    else if quad_pos = 1 then
      Except.error (pstr "Invalid base64-encoded string: number of data characters cannot be 1 more than a multiple of 4")
    else Except.error (pstr "Incorrect padding")
  | c :: cs, quad_pos, leftchar, pads, acc =>
    if c = 61 then
      if 2 ≤ quad_pos ∧ 4 ≤ quad_pos + (pads + 1) then Except.ok acc.reverse
      else a2b cs quad_pos leftchar (if 2 ≤ quad_pos then pads + 1 else pads) acc
    else
      match b64val c with
      | none => a2b cs quad_pos leftchar pads acc
      | some v =>
        match quad_pos with
        | 0 => a2b cs 1 v 0 acc
        | 1 => a2b cs 2 (v % 16) 0 ((leftchar * 4 + v / 16) :: acc)
        | 2 => a2b cs 3 (v % 4) 0 ((leftchar * 16 + v / 4) :: acc)
        | _ => a2b cs 0 0 0 ((leftchar * 64 + v) :: acc)

/-- `base64.b64decode(content)` on a Python `str`: CPython first encodes the
argument as ASCII (raising on any code point above 127), then runs
`binascii.a2b_base64` in non-strict mode. -/
def b64decodePy (s : PyStr) : Except PyStr Bytes :=
  if s.all (fun c => c < 128) then a2b s 0 0 0 []
  else Except.error (pstr "ValueError: string argument should contain only ASCII characters")

/-! ## Remote client model -/

/-- An app deployment record from the SDK (`AppDeployment`); all its
attributes used by the code are optional. -/
structure AppDeployment where
  source_code_path : Option PyStr
deriving DecidableEq, Repr

/-- An app record returned by `w.apps.list()` / `w.apps.get(...)` (SDK
`App`); the attributes the code reads are all optional in the SDK. -/
structure RemoteApp where
  name : Option PyStr
  description : Option PyStr
  url : Option PyStr
  compute_status : Option PyStr
  active_deployment : Option AppDeployment
deriving DecidableEq, Repr

/-- The result of `w.apps.deploy(...)`: a deployment whose identifier and
status (we keep `status.value` directly) are optional. -/
structure DeployResult where
  deployment_id : Option PyStr
  status : Option PyStr
deriving DecidableEq, Repr

/-- One `w.apps.deploy(app_name=…, source_code_path=…)` call issued to the
remote client. -/
structure DeployCall where
  app_name : PyStr
  source_code_path : PyStr
deriving DecidableEq, Repr

/-- The remote `WorkspaceClient`, as an oracle giving the outcome of each
remote call the wrappers can issue.  `Except.error e` models the call
raising an exception with `str(e) = e`. -/
structure WorkspaceClient where
  apps_list : Except PyStr (List RemoteApp)
  apps_get : PyStr → Except PyStr RemoteApp
  apps_deploy : PyStr → PyStr → Except PyStr DeployResult
  apps_start : PyStr → Except PyStr Unit
  apps_stop : PyStr → Except PyStr Unit
  workspace_download : PyStr → Except PyStr Bytes
  workspace_upload : PyStr → Bytes → PyStr → Option PyStr → Bool → Except PyStr Unit

/-! ## The tool wrappers -/

/-- `add(a, b)`: the addition tool. -/
def add (a b : Int) : Int := a + b

/-- `get_greeting(name)`: the greeting resource. -/
def get_greeting (name : PyStr) : PyStr := pstr "Hello, " ++ name ++ pstr "!"

/-- Projection of one app record inside the `list_databricks_apps` loop.
Reading `app.active_deployment.source_code_path` when `active_deployment`
is `None` raises an `AttributeError`, which escapes to the surrounding
`try`. -/
def projectApp (a : RemoteApp) : Except PyStr Dict :=
  match a.active_deployment with
  | none =>
    Except.error (pstr "AttributeError: NoneType object has no attribute source_code_path")
  | some d =>
    Except.ok [("name", optStrVal a.name), ("description", optStrVal a.description),
      ("app_url", optStrVal a.url), ("source_code_path", optStrVal d.source_code_path)]

/-- First-error sequencing of the projection loop: the Python `for` either
finishes the whole list or aborts at the first exception, discarding the
partial accumulator. -/
def mapE (f : α → Except ε β) : List α → Except ε (List β)
  | [] => Except.ok []
  | a :: as =>
    match f a with
    | Except.error e => Except.error e
    | Except.ok b =>
      match mapE f as with
      | Except.error e => Except.error e
      | Except.ok bs => Except.ok (b :: bs)

/-- `list_databricks_apps()`. -/
def list_databricks_apps (w : WorkspaceClient) : List Dict :=
  match w.apps_list with
  | Except.error e =>
    [[("error", Value.str (pstr "Failed to list apps: " ++ e))]]
  | Except.ok apps =>
    match mapE projectApp apps with
    | Except.error e =>
      [[("error", Value.str (pstr "Failed to list apps: " ++ e))]]
    | Except.ok app_list => app_list

/-- `download_workspace_file(path)`. -/
def download_workspace_file (w : WorkspaceClient) (path : PyStr) : Dict :=
  match w.workspace_download path with
  | Except.error e =>
    [("path", Value.str path),
     ("error", Value.str (pstr "Failed to download file: " ++ e)),
     ("success", Value.bool false)]
  | Except.ok content =>
    match utf8Decode content with
    | some text_content =>
      [("path", Value.str path), ("content", Value.str text_content),
       ("is_binary", Value.bool false), ("size_bytes", Value.nat content.length),
       ("success", Value.bool true)]
    | none =>
      [("path", Value.str path), ("content", Value.str (b64encode content)),
       ("is_binary", Value.bool true), ("size_bytes", Value.nat content.length),
       ("success", Value.bool true)]

/-- Lines 117-119 of the code: `if source_code_path is None and
app.active_deployment:` fall back to the active deployment's source path
(itself optional); any explicitly passed value is kept. -/
def resolveSourcePath (source_code_path : Option PyStr) (app : RemoteApp) :
    Option PyStr :=
  match source_code_path, app.active_deployment with
  | none, some d => d.source_code_path
  | s, _ => s

/-- The `success = false` dict `redeploy_databricks_app` returns when no
source path is available. -/
def noSourceDict (app_name : PyStr) : Dict :=
  [("app_name", Value.str app_name),
   ("error", Value.str (pstr "No source code path available for deployment")),
   ("success", Value.bool false)]

/-- Lines 128-146 of the code: issue the deployment call and shape either
result; the deploy call has been issued in both outcomes. -/
def redeployWithPath (w : WorkspaceClient) (app_name p : PyStr) :
    Dict × List DeployCall :=
  match w.apps_deploy app_name p with
  | Except.error e =>
    ([("app_name", Value.str app_name),
      ("error", Value.str (pstr "Failed to redeploy app: " ++ e)),
      ("success", Value.bool false)], [⟨app_name, p⟩])
  | Except.ok dep =>
    ([("app_name", Value.str app_name),
      ("deployment_id", optStrVal dep.deployment_id),
      ("source_code_path", Value.str p),
      ("status", Value.str (match dep.status with
        | some s => s
        | none => pstr "unknown")),
      ("success", Value.bool true)], [⟨app_name, p⟩])

/-- Lines 121-146: `if not source_code_path:` rejects both `None` and the
empty string before any deployment call. -/
def redeployResolved (w : WorkspaceClient) (app_name : PyStr) :
    Option PyStr → Dict × List DeployCall
  | none => (noSourceDict app_name, [])
  | some p =>
    if p = [] then (noSourceDict app_name, [])
    else redeployWithPath w app_name p

/-- `redeploy_databricks_app(app_name, source_code_path=None)`.  Returns the
result dict together with the list of `w.apps.deploy` calls issued during
the invocation. -/
def redeploy_databricks_app (w : WorkspaceClient) (app_name : PyStr)
    (source_code_path : Option PyStr) : Dict × List DeployCall :=
  match w.apps_get app_name with
  | Except.error e =>
    ([("app_name", Value.str app_name),
      ("error", Value.str (pstr "App not found: " ++ e)),
      ("success", Value.bool false)], [])
  | Except.ok app =>
    redeployResolved w app_name (resolveSourcePath source_code_path app)

/-- `start_databricks_app(app_name)`. -/
def start_databricks_app (w : WorkspaceClient) (app_name : PyStr) : Dict :=
  match w.apps_start app_name with
  | Except.error e =>
    [("app_name", Value.str app_name),
     ("error", Value.str (pstr "Failed to start app: " ++ e)),
     ("success", Value.bool false)]
  | Except.ok _ =>
    match w.apps_get app_name with
    | Except.error e =>
      [("app_name", Value.str app_name),
       ("error", Value.str (pstr "Failed to start app: " ++ e)),
       ("success", Value.bool false)]
    | Except.ok app =>
      [("app_name", Value.str app_name),
       ("status", Value.str (match app.compute_status with
         | some s => s
         | none => pstr "unknown")),
       ("app_url", optStrVal app.url),
       ("success", Value.bool true)]

/-- `stop_databricks_app(app_name)`. -/
def stop_databricks_app (w : WorkspaceClient) (app_name : PyStr) : Dict :=
  match w.apps_stop app_name with
  | Except.error e =>
    [("app_name", Value.str app_name),
     ("error", Value.str (pstr "Failed to stop app: " ++ e)),
     ("success", Value.bool false)]
  | Except.ok _ =>
    match w.apps_get app_name with
    | Except.error e =>
      [("app_name", Value.str app_name),
       ("error", Value.str (pstr "Failed to stop app: " ++ e)),
       ("success", Value.bool false)]
    | Except.ok app =>
      [("app_name", Value.str app_name),
       ("status", Value.str (match app.compute_status with
         | some s => s
         | none => pstr "unknown")),
       ("success", Value.bool true)]

/-- ASCII upper-casing, for `language.upper()` on the language tags the
`Language` enum can match. -/
def pyUpper (s : PyStr) : PyStr :=
  s.map (fun c => if 97 ≤ c ∧ c ≤ 122 then c - 32 else c)

/-- Members of the SDK `Language` enum checked by
`hasattr(Language, language_upper)`. -/
def languageMembers : List PyStr := [pstr "PYTHON", pstr "R", pstr "SCALA", pstr "SQL"]

/-- `content.encode("utf-8")` or `base64.b64decode(content)` depending on
`is_binary`: the first step of `upload_workspace_file`. -/
def contentToBytes (is_binary : Bool) (content : PyStr) : Except PyStr Bytes :=
  if is_binary then b64decodePy content else utf8EncodeE content

/-- The `language_enum` computation of `upload_workspace_file`: `if language:`
is false for `None` and for the empty string; otherwise `language.upper()` is
used when it is a member of the `Language` enum, else the enum stays
unset. -/
def languageEnumOf (language : Option PyStr) : Option PyStr :=
  match language with
  | none => none
  | some l =>
    if l ≠ [] ∧ pyUpper l ∈ languageMembers then some (pyUpper l) else none

/-- `upload_workspace_file(path, content, is_binary=False, overwrite=True,
language=None)`. -/
def upload_workspace_file (w : WorkspaceClient) (path content : PyStr)
    (is_binary overwrite : Bool) (language : Option PyStr) : Dict :=
  match contentToBytes is_binary content with
  | Except.error e =>
    [("path", Value.str path),
     ("error", Value.str (pstr "Failed to upload file: " ++ e)),
     ("success", Value.bool false)]
  | Except.ok content_bytes =>
    match w.workspace_upload path content_bytes (pstr "SOURCE") (languageEnumOf language) overwrite with
    | Except.error e =>
      [("path", Value.str path),
       ("error", Value.str (pstr "Failed to upload file: " ++ e)),
       ("success", Value.bool false)]
    | Except.ok _ =>
      [("path", Value.str path), ("size_bytes", Value.nat content_bytes.length),
       ("overwrite", Value.bool overwrite), ("language", optStrVal language),
       ("success", Value.bool true)]

/-! ## Concrete fixtures used in counterexamples and witnesses -/

/-- A generic remote error message. -/
def errPy : PyStr := pstr "boom"

/-- A client on which every remote call raises. -/
def baseClient : WorkspaceClient where
  apps_list := Except.error errPy
  apps_get := fun _ => Except.error errPy
  apps_deploy := fun _ _ => Except.error errPy
  apps_start := fun _ => Except.error errPy
  apps_stop := fun _ => Except.error errPy
  workspace_download := fun _ => Except.error errPy
  workspace_upload := fun _ _ _ _ _ => Except.error errPy

/-- An app record with every attribute populated. -/
def appX : RemoteApp :=
  ⟨some (pstr "app-x"), some (pstr "demo"), some (pstr "https://x"),
   some (pstr "ACTIVE"), some ⟨some (pstr "/Workspace/x")⟩⟩

/-- An app record with no active deployment. -/
def appNoDep : RemoteApp := ⟨some (pstr "app-y"), none, none, none, none⟩

/-- A client whose listing returns exactly one fully populated app. -/
def clientApps : WorkspaceClient :=
  { baseClient with apps_list := Except.ok [appX] }

/-- A client whose listing contains a record with no active deployment. -/
def clientBadApp : WorkspaceClient :=
  { baseClient with apps_list := Except.ok [appX, appNoDep] }

/-- A client on which `app-x` exists and deployment succeeds. -/
def clientGetX : WorkspaceClient :=
  { baseClient with
    apps_get := fun n => if n = pstr "app-x" then Except.ok appX else Except.error errPy
    apps_deploy := fun _ _ => Except.ok ⟨some (pstr "dep-1"), some (pstr "SUCCEEDED")⟩ }

/-- A client holding the single byte `0x41` at path `/f` (what uploading the
base64 string `QQ==` with the binary flag stores), with uploads accepted. -/
def clientRT : WorkspaceClient :=
  { baseClient with
    workspace_download := fun p => if p = pstr "/f" then Except.ok [65] else Except.error errPy
    workspace_upload := fun _ _ _ _ _ => Except.ok () }

/-- A client holding the single byte `0xFF` (not valid UTF-8) at every path,
with uploads accepted. -/
def clientBin : WorkspaceClient :=
  { baseClient with
    workspace_download := fun _ => Except.ok [255]
    workspace_upload := fun _ _ _ _ _ => Except.ok () }

/-! ## General lemmas -/

theorem pstr_append_ne_nil (s : String) (e : PyStr) (h : s ≠ "") :
    pstr s ++ e ≠ [] := by
  intro hcon
  rcases List.append_eq_nil.mp hcon with ⟨h1, _⟩
  apply h
  unfold pstr at h1
  exact String.ext (List.map_eq_nil_iff.mp h1)

theorem redeploy_get_ok (w : WorkspaceClient) (name : PyStr) (app : RemoteApp)
    (scp : Option PyStr) (h : w.apps_get name = Except.ok app) :
    redeploy_databricks_app w name scp =
      redeployResolved w name (resolveSourcePath scp app) := by
  unfold redeploy_databricks_app
  rw [h]

theorem resolveSourcePath_none_some (app : RemoteApp) (d : AppDeployment)
    (hd : app.active_deployment = some d) :
    resolveSourcePath none app = d.source_code_path := by
  unfold resolveSourcePath
  rw [hd]

theorem resolveSourcePath_none_none (app : RemoteApp)
    (hd : app.active_deployment = none) :
    resolveSourcePath none app = none := by
  unfold resolveSourcePath
  rw [hd]

theorem mapE_error_of_mem (f : α → Except ε β) (l : List α) (a : α) (e : ε)
    (ha : a ∈ l) (hf : f a = Except.error e) :
    ∃ e2, mapE f l = Except.error e2 := by
  induction l with
  | nil => cases ha
  | cons x xs ih =>
    rcases List.mem_cons.mp ha with h1 | h1
    · subst h1
      exact ⟨e, by simp only [mapE, hf]⟩
    · cases hx : f x with
      | error e2 => exact ⟨e2, by simp only [mapE, hx]⟩
      | ok b =>
        obtain ⟨e2, h2⟩ := ih h1
        exact ⟨e2, by simp only [mapE, hx, h2]⟩

theorem mapE_ok_forall₂ (f : α → Except ε β) (l : List α)
    (h : ∀ a ∈ l, ∃ b, f a = Except.ok b) :
    ∃ bs, mapE f l = Except.ok bs ∧
      List.Forall₂ (fun a b => f a = Except.ok b) l bs := by
  induction l with
  | nil => exact ⟨[], rfl, List.Forall₂.nil⟩
  | cons x xs ih =>
    obtain ⟨b, hb⟩ := h x (List.mem_cons_self x xs)
    obtain ⟨bs, hbs, hf2⟩ := ih (fun a ha => h a (List.mem_cons_of_mem x ha))
    exact ⟨b :: bs, by simp only [mapE, hb, hbs], List.Forall₂.cons hb hf2⟩

theorem mapE_ok_mem (f : α → Except ε β) (l : List α) (bs : List β)
    (h : mapE f l = Except.ok bs) (b : β) (hb : b ∈ bs) :
    ∃ a ∈ l, f a = Except.ok b := by
  induction l generalizing bs with
  | nil =>
    simp only [mapE] at h
    cases h
    cases hb
  | cons x xs ih =>
    simp only [mapE] at h
    cases hx : f x with
    | error e =>
      simp only [hx] at h
      exact Except.noConfusion h
    | ok b0 =>
      simp only [hx] at h
      cases hxs : mapE f xs with
      | error e =>
        simp only [hxs] at h
        exact Except.noConfusion h
      | ok bs0 =>
        simp only [hxs] at h
        cases h
        rcases List.mem_cons.mp hb with h1 | h1
        · subst h1
          exact ⟨x, List.mem_cons_self x xs, hx⟩
        · obtain ⟨a, ha, hfa⟩ := ih bs0 hxs h1
          exact ⟨a, List.mem_cons_of_mem x ha, hfa⟩

theorem projectApp_ok_shape (a : RemoteApp) (d : Dict)
    (h : projectApp a = Except.ok d) :
    ∃ dep, a.active_deployment = some dep ∧
      d = [("name", optStrVal a.name), ("description", optStrVal a.description),
           ("app_url", optStrVal a.url),
           ("source_code_path", optStrVal dep.source_code_path)] := by
  unfold projectApp at h
  cases had : a.active_deployment with
  | none =>
    rw [had] at h
    exact Except.noConfusion h
  | some dep =>
    rw [had] at h
    exact ⟨dep, rfl, (Except.ok.inj h).symm⟩

theorem download_success_key (w : WorkspaceClient) (path : PyStr) :
    ∃ b, getKey (download_workspace_file w path) "success" =
      some (Value.bool b) := by
  cases hdl : w.workspace_download path with
  | error e => exact ⟨false, by simp only [download_workspace_file, hdl]; rfl⟩
  | ok content =>
    cases hdec : utf8Decode content with
    | none =>
      exact ⟨true, by simp only [download_workspace_file, hdl, hdec]; rfl⟩
    | some t =>
      exact ⟨true, by simp only [download_workspace_file, hdl, hdec]; rfl⟩

theorem upload_success_key (w : WorkspaceClient) (path content : PyStr)
    (ib ow : Bool) (lang : Option PyStr) :
    ∃ b, getKey (upload_workspace_file w path content ib ow lang) "success" =
      some (Value.bool b) := by
  cases hcb : contentToBytes ib content with
  | error e => exact ⟨false, by simp only [upload_workspace_file, hcb]; rfl⟩
  | ok bs =>
    cases hup : w.workspace_upload path bs (pstr "SOURCE") (languageEnumOf lang) ow with
    | error e =>
      exact ⟨false, by simp only [upload_workspace_file, hcb, hup]; rfl⟩
    | ok u =>
      exact ⟨true, by simp only [upload_workspace_file, hcb, hup]; rfl⟩

theorem start_success_key (w : WorkspaceClient) (name : PyStr) :
    ∃ b, getKey (start_databricks_app w name) "success" =
      some (Value.bool b) := by
  cases hs : w.apps_start name with
  | error e => exact ⟨false, by simp only [start_databricks_app, hs]; rfl⟩
  | ok u =>
    cases hg : w.apps_get name with
    | error e =>
      exact ⟨false, by simp only [start_databricks_app, hs, hg]; rfl⟩
    | ok app =>
      exact ⟨true, by simp only [start_databricks_app, hs, hg]; rfl⟩

theorem stop_success_key (w : WorkspaceClient) (name : PyStr) :
    ∃ b, getKey (stop_databricks_app w name) "success" =
      some (Value.bool b) := by
  cases hs : w.apps_stop name with
  | error e => exact ⟨false, by simp only [stop_databricks_app, hs]; rfl⟩
  | ok u =>
    cases hg : w.apps_get name with
    | error e =>
      exact ⟨false, by simp only [stop_databricks_app, hs, hg]; rfl⟩
    | ok app =>
      exact ⟨true, by simp only [stop_databricks_app, hs, hg]; rfl⟩

theorem redeploy_success_key (w : WorkspaceClient) (name : PyStr)
    (scp : Option PyStr) :
    ∃ b, getKey (redeploy_databricks_app w name scp).1 "success" =
      some (Value.bool b) := by
  cases hg : w.apps_get name with
  | error e =>
    exact ⟨false, by simp only [redeploy_databricks_app, hg]; rfl⟩
  | ok app =>
    rw [redeploy_get_ok w name app scp hg]
    cases hres : resolveSourcePath scp app with
    | none => exact ⟨false, rfl⟩
    | some p =>
      simp only [redeployResolved]
      by_cases hp : p = []
      · rw [if_pos hp]
        exact ⟨false, rfl⟩
      · rw [if_neg hp]
        unfold redeployWithPath
        cases hdep : w.apps_deploy name p with
        | error e => exact ⟨false, rfl⟩
        | ok dep => exact ⟨true, rfl⟩

theorem list_apps_no_success (w : WorkspaceClient) :
    ∀ d ∈ list_databricks_apps w, getKey d "success" = none := by
  intro d hd
  unfold list_databricks_apps at hd
  cases hl : w.apps_list with
  | error e =>
    simp only [hl] at hd
    simp at hd
    subst hd
    rfl
  | ok apps =>
    simp only [hl] at hd
    cases hm : mapE projectApp apps with
    | error e =>
      simp only [hm] at hd
      simp at hd
      subst hd
      rfl
    | ok l =>
      simp only [hm] at hd
      obtain ⟨a, ha, hpa⟩ := mapE_ok_mem projectApp apps l hm d hd
      obtain ⟨dep, hdep, hshape⟩ := projectApp_ok_shape a d hpa
      subst hshape
      rfl

/-! ## C9: the `add` tool -/

/-- C9 counterexample: the claim says `add` applied to 2 and 3 returns 4;
the code returns `a + b`, and `add 2 3` is not 4. -/
theorem add_two_three_counterexample : add 2 3 ≠ 4 := by decide

/-- C9 (amended): `add` applied to the integers 2 and 3 returns 5. -/
theorem add_two_three_eq_five : add 2 3 = 5 := by decide

/-! ## C3: `download_workspace_file` error shape -/

/-- C3: whenever the remote download raises, `download_workspace_file`
returns (never raises) a mapping with `success = false`, the echoed path and
a non-empty error string, and containing no `content` key. -/
theorem download_error_shape (w : WorkspaceClient) (path e : PyStr)
    (h : w.workspace_download path = Except.error e) :
    getKey (download_workspace_file w path) "success" = some (Value.bool false) ∧
    getKey (download_workspace_file w path) "path" = some (Value.str path) ∧
    (∃ msg, getKey (download_workspace_file w path) "error" = some (Value.str msg) ∧
      msg ≠ []) ∧
    getKey (download_workspace_file w path) "content" = none := by
  have hr : download_workspace_file w path =
      [("path", Value.str path),
       ("error", Value.str (pstr "Failed to download file: " ++ e)),
       ("success", Value.bool false)] := by
    unfold download_workspace_file
    rw [h]
  rw [hr]
  exact ⟨rfl, rfl,
    ⟨pstr "Failed to download file: " ++ e, rfl,
      pstr_append_ne_nil "Failed to download file: " e (by decide)⟩, rfl⟩

/-- C3 witness: a concrete client on which the remote download of `/f`
raises. -/
theorem download_error_shape_witness :
    getKey (download_workspace_file baseClient (pstr "/f")) "success" =
      some (Value.bool false) ∧
    getKey (download_workspace_file baseClient (pstr "/f")) "path" =
      some (Value.str (pstr "/f")) ∧
    (∃ msg, getKey (download_workspace_file baseClient (pstr "/f")) "error" =
      some (Value.str msg) ∧ msg ≠ []) ∧
    getKey (download_workspace_file baseClient (pstr "/f")) "content" = none :=
  download_error_shape baseClient (pstr "/f") errPy rfl

/-! ## C4: `redeploy_databricks_app` on a missing app -/

/-- C4: when the remote get-app call fails, `redeploy_databricks_app`
returns `success = false` with the not-found error message (distinct from
the generic redeploy failure message for the same exception), and issues no
deployment call. -/
theorem redeploy_not_found (w : WorkspaceClient) (name e : PyStr)
    (scp : Option PyStr) (h : w.apps_get name = Except.error e) :
    redeploy_databricks_app w name scp =
      ([("app_name", Value.str name),
        ("error", Value.str (pstr "App not found: " ++ e)),
        ("success", Value.bool false)], []) ∧
    pstr "App not found: " ++ e ≠ pstr "Failed to redeploy app: " ++ e := by
  constructor
  · unfold redeploy_databricks_app
    rw [h]
  · intro hcon
    have h2 := congrArg List.head? hcon
    simp [pstr] at h2

/-- C4 witness: a concrete client on which `apps.get` raises for
`missing-app`. -/
theorem redeploy_not_found_witness :
    redeploy_databricks_app baseClient (pstr "missing-app") none =
      ([("app_name", Value.str (pstr "missing-app")),
        ("error", Value.str (pstr "App not found: " ++ errPy)),
        ("success", Value.bool false)], []) ∧
    pstr "App not found: " ++ errPy ≠ pstr "Failed to redeploy app: " ++ errPy :=
  redeploy_not_found baseClient (pstr "missing-app") errPy none rfl

/-! ## C7: `upload_workspace_file` with malformed base64 -/

/-- C7: for any path and any content string on which `base64.b64decode`
raises, `upload_workspace_file` with `is_binary = true` returns (rather than
raising) a mapping with `success = false`, the echoed path and a non-empty
error string. -/
theorem upload_invalid_base64 (w : WorkspaceClient) (path content e : PyStr)
    (ow : Bool) (lang : Option PyStr)
    (h : b64decodePy content = Except.error e) :
    upload_workspace_file w path content true ow lang =
      [("path", Value.str path),
       ("error", Value.str (pstr "Failed to upload file: " ++ e)),
       ("success", Value.bool false)] ∧
    pstr "Failed to upload file: " ++ e ≠ [] := by
  constructor
  · unfold upload_workspace_file contentToBytes
    rw [if_pos rfl]
    rw [h]
  · exact pstr_append_ne_nil "Failed to upload file: " e (by decide)

/-- C7 witness: the content `QQ` is malformed base64 (incorrect padding). -/
theorem upload_invalid_base64_witness :
    upload_workspace_file baseClient (pstr "/f") (pstr "QQ") true true none =
      [("path", Value.str (pstr "/f")),
       ("error", Value.str (pstr "Failed to upload file: " ++ pstr "Incorrect padding")),
       ("success", Value.bool false)] ∧
    pstr "Failed to upload file: " ++ pstr "Incorrect padding" ≠ [] :=
  upload_invalid_base64 baseClient (pstr "/f") (pstr "QQ")
    (pstr "Incorrect padding") true none rfl

/-! ## C10: `redeploy_databricks_app` with an explicitly empty source path -/

/-- C10: for any existing app, calling `redeploy_databricks_app` with
`source_code_path` set to the empty string yields `success = false` with the
no-source-path error and issues no deployment call; the active deployment
path is not substituted. -/
theorem redeploy_empty_source_path (w : WorkspaceClient) (name : PyStr)
    (app : RemoteApp) (h : w.apps_get name = Except.ok app) :
    redeploy_databricks_app w name (some []) =
      ([("app_name", Value.str name),
        ("error", Value.str (pstr "No source code path available for deployment")),
        ("success", Value.bool false)], []) := by
  unfold redeploy_databricks_app
  rw [h]
  rfl

/-- C10 witness: `app-x` exists on `clientGetX` and has an active deployment
at `/Workspace/x`, yet the empty source path is rejected without a deploy
call. -/
theorem redeploy_empty_source_path_witness :
    redeploy_databricks_app clientGetX (pstr "app-x") (some []) =
      ([("app_name", Value.str (pstr "app-x")),
        ("error", Value.str (pstr "No source code path available for deployment")),
        ("success", Value.bool false)], []) :=
  redeploy_empty_source_path clientGetX (pstr "app-x") appX rfl

/-! ## C2: presence of the `success` key -/

/-- C2 counterexample: when the remote listing raises, the single element
returned by `list_databricks_apps` contains no `success` key at all, so not
every wrapper result (including each element of the list result) carries a
boolean `success`. -/
theorem list_error_no_success_counterexample :
    list_databricks_apps baseClient =
      [[("error", Value.str (pstr "Failed to list apps: boom"))]] ∧
    getKey [("error", Value.str (pstr "Failed to list apps: boom"))] "success" =
      none :=
  ⟨rfl, rfl⟩

/-- C2 (amended): each of the five dict-returning wrappers (download,
upload, start, stop, redeploy) always returns a mapping containing the key
`success` with a boolean value, for every input and every remote outcome,
while the elements of the `list_databricks_apps` result never contain a
`success` key. -/
theorem success_key_boolean (w : WorkspaceClient) (path content name : PyStr)
    (ib ow : Bool) (lang scp : Option PyStr) :
    (∃ b, getKey (download_workspace_file w path) "success" =
      some (Value.bool b)) ∧
    (∃ b, getKey (upload_workspace_file w path content ib ow lang) "success" =
      some (Value.bool b)) ∧
    (∃ b, getKey (start_databricks_app w name) "success" =
      some (Value.bool b)) ∧
    (∃ b, getKey (stop_databricks_app w name) "success" =
      some (Value.bool b)) ∧
    (∃ b, getKey (redeploy_databricks_app w name scp).1 "success" =
      some (Value.bool b)) ∧
    (∀ d ∈ list_databricks_apps w, getKey d "success" = none) :=
  ⟨download_success_key w path, upload_success_key w path content ib ow lang,
   start_success_key w name, stop_success_key w name,
   redeploy_success_key w name scp, list_apps_no_success w⟩

/-! ## C6: `list_databricks_apps` is all-or-nothing -/

/-- C6: if the remote listing call raises, or the projection of any single
app record raises (e.g. an app with no active deployment), the result is a
single-element list containing only an error record — never a partial list
of projected apps. -/
theorem list_apps_all_or_nothing (w : WorkspaceClient) (e pe : PyStr)
    (apps : List RemoteApp) (a : RemoteApp) :
    (w.apps_list = Except.error e →
      list_databricks_apps w =
        [[("error", Value.str (pstr "Failed to list apps: " ++ e))]]) ∧
    (w.apps_list = Except.ok apps → a ∈ apps →
      projectApp a = Except.error pe →
      ∃ msg, list_databricks_apps w =
        [[("error", Value.str (pstr "Failed to list apps: " ++ msg))]]) := by
  constructor
  · intro hl
    unfold list_databricks_apps
    rw [hl]
  · intro hl ha hpa
    obtain ⟨e2, h2⟩ := mapE_error_of_mem projectApp apps a pe ha hpa
    refine ⟨e2, ?_⟩
    simp only [list_databricks_apps, hl, h2]

/-- C6 witness: a failing listing call on `baseClient`, and a listing on
`clientBadApp` containing an app with no active deployment, each collapse
to a single error record. -/
theorem list_apps_all_or_nothing_witness :
    list_databricks_apps baseClient =
      [[("error", Value.str (pstr "Failed to list apps: " ++ errPy))]] ∧
    ∃ msg, list_databricks_apps clientBadApp =
      [[("error", Value.str (pstr "Failed to list apps: " ++ msg))]] := by
  constructor
  · exact (list_apps_all_or_nothing baseClient errPy errPy [] appNoDep).1 rfl
  · exact (list_apps_all_or_nothing clientBadApp errPy
      (pstr "AttributeError: NoneType object has no attribute source_code_path")
      [appX, appNoDep] appNoDep).2 rfl (by decide) rfl

/-! ## C8: the listing projection -/

/-- C8 counterexample: on a successful listing, the projected entry contains
name, description, URL and source path, but no `status` key — the claim
that each entry also contains the status does not hold. -/
theorem list_apps_status_counterexample :
    list_databricks_apps clientApps =
      [[("name", Value.str (pstr "app-x")),
        ("description", Value.str (pstr "demo")),
        ("app_url", Value.str (pstr "https://x")),
        ("source_code_path", Value.str (pstr "/Workspace/x"))]] ∧
    getKey [("name", Value.str (pstr "app-x")),
        ("description", Value.str (pstr "demo")),
        ("app_url", Value.str (pstr "https://x")),
        ("source_code_path", Value.str (pstr "/Workspace/x"))] "status" =
      none :=
  ⟨rfl, rfl⟩

/-- C8 (amended): when the remote listing succeeds and every listed record
has an active deployment, `list_databricks_apps` returns one entry per app
in listing order, each entry being the projection (name, description,
app_url, source_code_path) of the corresponding record, and no entry
contains a `status` key. -/
theorem list_apps_projection (w : WorkspaceClient) (apps : List RemoteApp)
    (hl : w.apps_list = Except.ok apps)
    (hd : ∀ a ∈ apps, a.active_deployment ≠ none) :
    (list_databricks_apps w).length = apps.length ∧
    List.Forall₂ (fun a d => projectApp a = Except.ok d) apps
      (list_databricks_apps w) ∧
    ∀ d ∈ list_databricks_apps w, getKey d "status" = none := by
  have hok : ∀ a ∈ apps, ∃ dct, projectApp a = Except.ok dct := by
    intro a ha
    cases had : a.active_deployment with
    | none => exact absurd had (hd a ha)
    | some dep =>
      exact ⟨_, by unfold projectApp; rw [had]⟩
  obtain ⟨bs, hbs, hf2⟩ := mapE_ok_forall₂ projectApp apps hok
  have hlist : list_databricks_apps w = bs := by
    simp only [list_databricks_apps, hl, hbs]
  rw [hlist]
  refine ⟨(List.Forall₂.length_eq hf2).symm, hf2, ?_⟩
  intro d hdm
  obtain ⟨a, ha, hpa⟩ := mapE_ok_mem projectApp apps bs hbs d hdm
  obtain ⟨dep, hdep, hshape⟩ := projectApp_ok_shape a d hpa
  subst hshape
  rfl

/-- C8 witness: one fully populated app on `clientApps`. -/
theorem list_apps_projection_witness :
    (list_databricks_apps clientApps).length = ([appX] : List RemoteApp).length ∧
    List.Forall₂ (fun a d => projectApp a = Except.ok d) [appX]
      (list_databricks_apps clientApps) ∧
    ∀ d ∈ list_databricks_apps clientApps, getKey d "status" = none :=
  list_apps_projection clientApps [appX] rfl (by decide)

/-! ## C5: `redeploy_databricks_app` source-path fallback -/

/-- C5: for an existing app with `source_code_path` omitted, if the active
deployment has a non-empty source path `p` then exactly one deployment call
with path `p` is issued and a successful deployment echoes `p`; if the
resolved source path is unavailable (`None` or empty) the wrapper returns
the specific no-source-path error and issues no deployment call. -/
theorem redeploy_source_fallback (w : WorkspaceClient) (name : PyStr)
    (app : RemoteApp) (h : w.apps_get name = Except.ok app) :
    (∀ d p, app.active_deployment = some d → d.source_code_path = some p →
      p ≠ [] →
      (redeploy_databricks_app w name none).2 = [⟨name, p⟩] ∧
      ∀ dep, w.apps_deploy name p = Except.ok dep →
        redeploy_databricks_app w name none =
          ([("app_name", Value.str name),
            ("deployment_id", optStrVal dep.deployment_id),
            ("source_code_path", Value.str p),
            ("status", Value.str (match dep.status with
              | some s => s
              | none => pstr "unknown")),
            ("success", Value.bool true)], [⟨name, p⟩])) ∧
    (resolveSourcePath none app = none ∨ resolveSourcePath none app = some [] →
      redeploy_databricks_app w name none = (noSourceDict name, [])) := by
  rw [redeploy_get_ok w name app none h]
  constructor
  · intro d p hd hp hne
    rw [resolveSourcePath_none_some app d hd, hp]
    simp only [redeployResolved]
    rw [if_neg hne]
    constructor
    · unfold redeployWithPath
      cases hdep : w.apps_deploy name p <;> rfl
    · intro dep hdep
      unfold redeployWithPath
      rw [hdep]
  · intro hres
    rcases hres with hres | hres <;> rw [hres] <;> rfl

/-- C5 witness: on `clientGetX`, `app-x` has an active deployment at
`/Workspace/x`; with no explicit source path the deployment call uses it
and the success result echoes it. -/
theorem redeploy_source_fallback_witness :
    (redeploy_databricks_app clientGetX (pstr "app-x") none).2 =
      [⟨pstr "app-x", pstr "/Workspace/x"⟩] ∧
    redeploy_databricks_app clientGetX (pstr "app-x") none =
      ([("app_name", Value.str (pstr "app-x")),
        ("deployment_id", optStrVal (some (pstr "dep-1"))),
        ("source_code_path", Value.str (pstr "/Workspace/x")),
        ("status", Value.str (pstr "SUCCEEDED")),
        ("success", Value.bool true)], [⟨pstr "app-x", pstr "/Workspace/x"⟩]) := by
  have h := redeploy_source_fallback clientGetX (pstr "app-x") appX rfl
  have h1 := h.1 ⟨some (pstr "/Workspace/x")⟩ (pstr "/Workspace/x") rfl rfl
    (by decide)
  exact ⟨h1.1, h1.2 ⟨some (pstr "dep-1"), some (pstr "SUCCEEDED")⟩ rfl⟩


/-! ## Codec round-trip lemmas -/

theorem decodeOne_encodeChar (n : Nat) (h : ScalarCp n) (rest : Bytes) :
    decodeOne (encodeChar n ++ rest) = some (n, rest) := by
  obtain ⟨hlt, hsur⟩ := h
  by_cases h1 : n < 0x80
  · rw [show encodeChar n = [n] by unfold encodeChar; rw [if_pos h1]]
    simp only [List.cons_append, List.nil_append, decodeOne]
    rw [if_pos h1]
  · by_cases h2 : n < 0x800
    · rw [show encodeChar n = [0xC0 + n / 64, 0x80 + n % 64] by
        unfold encodeChar; rw [if_neg h1, if_pos h2]]
      simp only [List.cons_append, List.nil_append, decodeOne]
      rw [if_neg (by omega), if_neg (by omega), if_pos (by omega)]
      simp only [decode2]
      rw [if_pos (by simp only [isCont, Bool.and_eq_true, decide_eq_true_eq]; omega)]
      have heq : (0xC0 + n / 64 - 0xC0) * 64 + (0x80 + n % 64 - 0x80) = n := by omega
      rw [heq]
    · by_cases h3 : n < 0x10000
      · rw [show encodeChar n = [0xE0 + n / 4096, 0x80 + n / 64 % 64, 0x80 + n % 64] by
          unfold encodeChar; rw [if_neg h1, if_neg h2, if_pos h3]]
        simp only [List.cons_append, List.nil_append, decodeOne]
        rw [if_neg (by omega), if_neg (by omega), if_neg (by omega), if_pos (by omega)]
        simp only [decode3]
        rw [if_pos (by simp only [isCont, Bool.and_eq_true, decide_eq_true_eq]; omega)]
        have heq : (0xE0 + n / 4096 - 0xE0) * 4096 + (0x80 + n / 64 % 64 - 0x80) * 64 +
            (0x80 + n % 64 - 0x80) = n := by omega
        rw [heq]
        rw [if_neg (by
          simp only [Bool.or_eq_true, Bool.and_eq_true, decide_eq_true_eq]
          omega)]
      · rw [show encodeChar n = [0xF0 + n / 262144, 0x80 + n / 4096 % 64,
            0x80 + n / 64 % 64, 0x80 + n % 64] by
          unfold encodeChar; rw [if_neg h1, if_neg h2, if_neg h3]]
        simp only [List.cons_append, List.nil_append, decodeOne]
        rw [if_neg (by omega), if_neg (by omega), if_neg (by omega), if_neg (by omega),
          if_pos (by omega)]
        simp only [decode4]
        rw [if_pos (by simp only [isCont, Bool.and_eq_true, decide_eq_true_eq]; omega)]
        have heq : (0xF0 + n / 262144 - 0xF0) * 262144 +
            (0x80 + n / 4096 % 64 - 0x80) * 4096 +
            (0x80 + n / 64 % 64 - 0x80) * 64 + (0x80 + n % 64 - 0x80) = n := by omega
        rw [heq]
        rw [if_neg (by
          simp only [Bool.or_eq_true, decide_eq_true_eq]
          omega)]

theorem encodeChar_shape (n : Nat) : ∃ b bs, encodeChar n = b :: bs := by
  unfold encodeChar
  by_cases h1 : n < 0x80
  · exact ⟨_, _, by rw [if_pos h1]⟩
  · by_cases h2 : n < 0x800
    · exact ⟨_, _, by rw [if_neg h1, if_pos h2]⟩
    · by_cases h3 : n < 0x10000
      · exact ⟨_, _, by rw [if_neg h1, if_neg h2, if_pos h3]⟩
      · exact ⟨_, _, by rw [if_neg h1, if_neg h2, if_neg h3]⟩

theorem utf8DecodeAux_encode (s : PyStr) (h : ValidStr s) :
    ∀ fuel, (utf8Encode s).length ≤ fuel →
      utf8DecodeAux fuel (utf8Encode s) = some s := by
  induction s with
  | nil => intro fuel hf; cases fuel <;> rfl
  | cons c cs ih =>
    intro fuel hf
    have hc : ScalarCp c := h c (List.mem_cons_self c cs)
    have hcs : ValidStr cs := fun x hx => h x (List.mem_cons_of_mem c hx)
    have henc : utf8Encode (c :: cs) = encodeChar c ++ utf8Encode cs := by
      simp [utf8Encode]
    obtain ⟨b, bs, hshape⟩ := encodeChar_shape c
    have hlen : (utf8Encode cs).length ≤ fuel - 1 := by
      rw [henc, hshape] at hf
      simp at hf
      omega
    cases fuel with
    | zero =>
      exfalso
      rw [henc, hshape] at hf
      simp at hf
    | succ fuel2 =>
      rw [henc, hshape, List.cons_append]
      simp only [utf8DecodeAux]
      rw [← List.cons_append, ← hshape, decodeOne_encodeChar c hc (utf8Encode cs)]
      show (utf8DecodeAux fuel2 (utf8Encode cs)).map (fun s2 => c :: s2) = some (c :: cs)
      rw [ih hcs fuel2 (by simpa using hlen)]
      rfl

theorem utf8_decode_encode (s : PyStr) (h : ValidStr s) :
    utf8Decode (utf8Encode s) = some s :=
  utf8DecodeAux_encode s h (utf8Encode s).length le_rfl

theorem isCont_bounds (b : Nat) (h : isCont b = true) : 0x80 ≤ b ∧ b < 0xC0 := by
  simp only [isCont, Bool.and_eq_true, decide_eq_true_eq] at h
  exact h

theorem decodeOne_sound (l : Bytes) (n : Nat) (rest2 : Bytes)
    (h : decodeOne l = some (n, rest2)) :
    l = encodeChar n ++ rest2 ∧ ScalarCp n := by
  cases l with
  | nil => exact Option.noConfusion h
  | cons b rest =>
    simp only [decodeOne] at h
    by_cases h1 : b < 0x80
    · rw [if_pos h1] at h
      obtain ⟨hn, hr⟩ := Prod.mk.injEq _ _ _ _ ▸ Option.some.inj h
      subst hn
      subst hr
      constructor
      · rw [show encodeChar b = [b] by unfold encodeChar; rw [if_pos h1]]
        rfl
      · exact ⟨by omega, by omega⟩
    · rw [if_neg h1] at h
      by_cases h2 : b < 0xC2
      · rw [if_pos h2] at h
        exact Option.noConfusion h
      · rw [if_neg h2] at h
        by_cases h3 : b < 0xE0
        · rw [if_pos h3] at h
          cases rest with
          | nil => exact Option.noConfusion h
          | cons b1 rest1 =>
            simp only [decode2] at h
            by_cases hc1 : isCont b1 = true
            · rw [if_pos hc1] at h
              obtain ⟨hb1a, hb1b⟩ := isCont_bounds b1 hc1
              obtain ⟨hn, hr⟩ := Prod.mk.injEq _ _ _ _ ▸ Option.some.inj h
              subst hn
              subst hr
              constructor
              · rw [show encodeChar ((b - 0xC0) * 64 + (b1 - 0x80)) =
                    [0xC0 + ((b - 0xC0) * 64 + (b1 - 0x80)) / 64,
                     0x80 + ((b - 0xC0) * 64 + (b1 - 0x80)) % 64] by
                  unfold encodeChar
                  rw [if_neg (by omega), if_pos (by omega)]]
                have e1 : 0xC0 + ((b - 0xC0) * 64 + (b1 - 0x80)) / 64 = b := by omega
                have e2 : 0x80 + ((b - 0xC0) * 64 + (b1 - 0x80)) % 64 = b1 := by omega
                rw [e1, e2]
                rfl
              · exact ⟨by omega, by omega⟩
            · rw [if_neg hc1] at h
              exact Option.noConfusion h
        · rw [if_neg h3] at h
          by_cases h4 : b < 0xF0
          · rw [if_pos h4] at h
            match rest with
            | [] => exact Option.noConfusion h
            | [b1] => exact Option.noConfusion h
            | b1 :: b2 :: rest2src =>
              simp only [decode3] at h
              split at h
              · split at h
                · exact Option.noConfusion h
                · next hcc hval =>
                  rw [Bool.and_eq_true] at hcc
                  obtain ⟨hc1, hc2⟩ := hcc
                  obtain ⟨hb1a, hb1b⟩ := isCont_bounds b1 hc1
                  obtain ⟨hb2a, hb2b⟩ := isCont_bounds b2 hc2
                  simp only [Bool.or_eq_true, Bool.and_eq_true,
                    decide_eq_true_eq] at hval
                  obtain ⟨hn, hr⟩ := Prod.mk.injEq _ _ _ _ ▸ Option.some.inj h
                  subst hn
                  subst hr
                  constructor
                  · rw [show encodeChar ((b - 0xE0) * 4096 + (b1 - 0x80) * 64 + (b2 - 0x80)) =
                        [0xE0 + ((b - 0xE0) * 4096 + (b1 - 0x80) * 64 + (b2 - 0x80)) / 4096,
                         0x80 + ((b - 0xE0) * 4096 + (b1 - 0x80) * 64 + (b2 - 0x80)) / 64 % 64,
                         0x80 + ((b - 0xE0) * 4096 + (b1 - 0x80) * 64 + (b2 - 0x80)) % 64] by
                      unfold encodeChar
                      rw [if_neg (by omega), if_neg (by omega), if_pos (by omega)]]
                    have e1 : 0xE0 + ((b - 0xE0) * 4096 + (b1 - 0x80) * 64 + (b2 - 0x80)) / 4096 = b := by
                      omega
                    have e2 : 0x80 + ((b - 0xE0) * 4096 + (b1 - 0x80) * 64 + (b2 - 0x80)) / 64 % 64 = b1 := by
                      omega
                    have e3 : 0x80 + ((b - 0xE0) * 4096 + (b1 - 0x80) * 64 + (b2 - 0x80)) % 64 = b2 := by
                      omega
                    rw [e1, e2, e3]
                    rfl
                  · exact ⟨by omega, by omega⟩
              · exact Option.noConfusion h
          · rw [if_neg h4] at h
            by_cases h5 : b < 0xF5
            · rw [if_pos h5] at h
              match rest with
              | [] => exact Option.noConfusion h
              | [b1] => exact Option.noConfusion h
              | [b1, b2] => exact Option.noConfusion h
              | b1 :: b2 :: b3 :: rest3src =>
                simp only [decode4] at h
                split at h
                · split at h
                  · exact Option.noConfusion h
                  · next hcc hval =>
                    rw [Bool.and_eq_true, Bool.and_eq_true] at hcc
                    obtain ⟨⟨hc1, hc2⟩, hc3⟩ := hcc
                    obtain ⟨hb1a, hb1b⟩ := isCont_bounds b1 hc1
                    obtain ⟨hb2a, hb2b⟩ := isCont_bounds b2 hc2
                    obtain ⟨hb3a, hb3b⟩ := isCont_bounds b3 hc3
                    simp only [Bool.or_eq_true, decide_eq_true_eq] at hval
                    obtain ⟨hn, hr⟩ := Prod.mk.injEq _ _ _ _ ▸ Option.some.inj h
                    subst hn
                    subst hr
                    constructor
                    · rw [show encodeChar ((b - 0xF0) * 262144 + (b1 - 0x80) * 4096 +
                            (b2 - 0x80) * 64 + (b3 - 0x80)) =
                          [0xF0 + ((b - 0xF0) * 262144 + (b1 - 0x80) * 4096 +
                            (b2 - 0x80) * 64 + (b3 - 0x80)) / 262144,
                           0x80 + ((b - 0xF0) * 262144 + (b1 - 0x80) * 4096 +
                            (b2 - 0x80) * 64 + (b3 - 0x80)) / 4096 % 64,
                           0x80 + ((b - 0xF0) * 262144 + (b1 - 0x80) * 4096 +
                            (b2 - 0x80) * 64 + (b3 - 0x80)) / 64 % 64,
                           0x80 + ((b - 0xF0) * 262144 + (b1 - 0x80) * 4096 +
                            (b2 - 0x80) * 64 + (b3 - 0x80)) % 64] by
                        unfold encodeChar
                        rw [if_neg (by omega), if_neg (by omega), if_neg (by omega)]]
                      have e1 : 0xF0 + ((b - 0xF0) * 262144 + (b1 - 0x80) * 4096 +
                          (b2 - 0x80) * 64 + (b3 - 0x80)) / 262144 = b := by omega
                      have e2 : 0x80 + ((b - 0xF0) * 262144 + (b1 - 0x80) * 4096 +
                          (b2 - 0x80) * 64 + (b3 - 0x80)) / 4096 % 64 = b1 := by omega
                      have e3 : 0x80 + ((b - 0xF0) * 262144 + (b1 - 0x80) * 4096 +
                          (b2 - 0x80) * 64 + (b3 - 0x80)) / 64 % 64 = b2 := by omega
                      have e4 : 0x80 + ((b - 0xF0) * 262144 + (b1 - 0x80) * 4096 +
                          (b2 - 0x80) * 64 + (b3 - 0x80)) % 64 = b3 := by omega
                      rw [e1, e2, e3, e4]
                      rfl
                    · exact ⟨by omega, by omega⟩
                · exact Option.noConfusion h
            · rw [if_neg h5] at h
              exact Option.noConfusion h

theorem utf8DecodeAux_sound (fuel : Nat) (l : Bytes) (s : PyStr)
    (h : utf8DecodeAux fuel l = some s) :
    utf8Encode s = l ∧ ValidStr s := by
  induction fuel generalizing l s with
  | zero =>
    cases l with
    | nil =>
      cases Option.some.inj h
      exact ⟨rfl, fun c hc => absurd hc (List.not_mem_nil c)⟩
    | cons b rest => exact Option.noConfusion h
  | succ fuel ih =>
    cases l with
    | nil =>
      cases Option.some.inj h
      exact ⟨rfl, fun c hc => absurd hc (List.not_mem_nil c)⟩
    | cons b rest =>
      simp only [utf8DecodeAux] at h
      cases hdo : decodeOne (b :: rest) with
      | none =>
        rw [hdo] at h
        exact Option.noConfusion h
      | some nr =>
        simp only [hdo] at h
        cases haux : utf8DecodeAux fuel nr.2 with
        | none =>
          rw [haux] at h
          exact Option.noConfusion h
        | some s2 =>
          rw [haux] at h
          obtain ⟨henc, hsc⟩ := decodeOne_sound (b :: rest) nr.1 nr.2 hdo
          obtain ⟨h2, hval2⟩ := ih nr.2 s2 haux
          cases Option.some.inj h
          constructor
          · show utf8Encode (nr.1 :: s2) = b :: rest
            have : utf8Encode (nr.1 :: s2) = encodeChar nr.1 ++ utf8Encode s2 := by
              simp [utf8Encode]
            rw [this, h2, ← henc]
          · intro c hc
            rcases List.mem_cons.mp hc with h1 | h1
            · subst h1
              exact hsc
            · exact hval2 c h1

theorem utf8_encode_decode (l : Bytes) (s : PyStr) (h : utf8Decode l = some s) :
    utf8Encode s = l ∧ ValidStr s :=
  utf8DecodeAux_sound l.length l s h

theorem b64val_b64char : ∀ v, v < 64 → b64val (b64char v) = some v := by decide

theorem b64char_ne_pad : ∀ v, v < 64 → b64char v ≠ 61 := by decide

theorem b64char_lt_128 : ∀ v, v < 64 → b64char v < 128 := by decide

theorem a2b_step0 (v : Nat) (hv : v < 64) (cs : List Nat) (lc pd : Nat)
    (acc : Bytes) :
    a2b (b64char v :: cs) 0 lc pd acc = a2b cs 1 v 0 acc := by
  simp only [a2b]
  rw [if_neg (b64char_ne_pad v hv), b64val_b64char v hv]

theorem a2b_step1 (v : Nat) (hv : v < 64) (cs : List Nat) (lc pd : Nat)
    (acc : Bytes) :
    a2b (b64char v :: cs) 1 lc pd acc =
      a2b cs 2 (v % 16) 0 ((lc * 4 + v / 16) :: acc) := by
  simp only [a2b]
  rw [if_neg (b64char_ne_pad v hv), b64val_b64char v hv]

theorem a2b_step2 (v : Nat) (hv : v < 64) (cs : List Nat) (lc pd : Nat)
    (acc : Bytes) :
    a2b (b64char v :: cs) 2 lc pd acc =
      a2b cs 3 (v % 4) 0 ((lc * 16 + v / 4) :: acc) := by
  simp only [a2b]
  rw [if_neg (b64char_ne_pad v hv), b64val_b64char v hv]

theorem a2b_step3 (v : Nat) (hv : v < 64) (cs : List Nat) (lc pd : Nat)
    (acc : Bytes) :
    a2b (b64char v :: cs) 3 lc pd acc =
      a2b cs 0 0 0 ((lc * 64 + v) :: acc) := by
  simp only [a2b]
  rw [if_neg (b64char_ne_pad v hv), b64val_b64char v hv]

theorem a2b_pad2_first (cs : List Nat) (lc : Nat) (acc : Bytes) :
    a2b (61 :: cs) 2 lc 0 acc = a2b cs 2 lc 1 acc := by
  simp only [a2b]
  rw [if_pos trivial, if_neg (by omega : ¬(2 ≤ 2 ∧ 4 ≤ 2 + (0 + 1)))]
  rfl

theorem a2b_pad2_done (cs : List Nat) (lc : Nat) (acc : Bytes) :
    a2b (61 :: cs) 2 lc 1 acc = Except.ok acc.reverse := by
  simp only [a2b]
  rw [if_pos trivial, if_pos (by omega : 2 ≤ 2 ∧ 4 ≤ 2 + (1 + 1))]

theorem a2b_pad3_done (cs : List Nat) (lc : Nat) (acc : Bytes) :
    a2b (61 :: cs) 3 lc 0 acc = Except.ok acc.reverse := by
  simp only [a2b]
  rw [if_pos trivial, if_pos (by omega : 2 ≤ 3 ∧ 4 ≤ 3 + (0 + 1))]

theorem a2b_b64encode (bs : Bytes) (h : ∀ x ∈ bs, x < 256) (acc : Bytes) :
    a2b (b64encode bs) 0 0 0 acc = Except.ok (acc.reverse ++ bs) := by
  induction bs using b64encode.induct generalizing acc with
  | case1 =>
    simp only [b64encode]
    simp [a2b]
  | case2 a =>
    have ha : a < 256 := h a (by simp)
    simp only [b64encode]
    rw [a2b_step0 (a / 4) (by omega)]
    rw [a2b_step1 (a % 4 * 16) (by omega)]
    rw [show a / 4 * 4 + a % 4 * 16 / 16 = a by omega]
    rw [a2b_pad2_first, a2b_pad2_done]
    simp
  | case3 a b =>
    have ha : a < 256 := h a (by simp)
    have hb : b < 256 := h b (by simp)
    simp only [b64encode]
    rw [a2b_step0 (a / 4) (by omega)]
    rw [a2b_step1 (a % 4 * 16 + b / 16) (by omega)]
    rw [show a / 4 * 4 + (a % 4 * 16 + b / 16) / 16 = a by omega]
    rw [a2b_step2 (b % 16 * 4) (by omega)]
    rw [show (a % 4 * 16 + b / 16) % 16 * 16 + b % 16 * 4 / 4 = b by omega]
    rw [a2b_pad3_done]
    simp
  | case4 a b c rest ih =>
    have ha : a < 256 := h a (by simp)
    have hb : b < 256 := h b (by simp)
    have hc : c < 256 := h c (by simp)
    have hrest : ∀ x ∈ rest, x < 256 := by
      intro x hx
      exact h x (by simp [hx])
    simp only [b64encode]
    rw [a2b_step0 (a / 4) (by omega)]
    rw [a2b_step1 (a % 4 * 16 + b / 16) (by omega)]
    rw [show a / 4 * 4 + (a % 4 * 16 + b / 16) / 16 = a by omega]
    rw [a2b_step2 (b % 16 * 4 + c / 64) (by omega)]
    rw [show (a % 4 * 16 + b / 16) % 16 * 16 + (b % 16 * 4 + c / 64) / 4 = b by omega]
    rw [a2b_step3 (c % 64) (by omega)]
    rw [show (b % 16 * 4 + c / 64) % 4 * 64 + c % 64 = c by omega]
    rw [ih hrest]
    simp

theorem b64encode_lt_128 (bs : Bytes) (h : ∀ x ∈ bs, x < 256) :
    ∀ x ∈ b64encode bs, x < 128 := by
  induction bs using b64encode.induct with
  | case1 => simp [b64encode]
  | case2 a =>
    have ha : a < 256 := h a (by simp)
    simp only [b64encode]
    intro x hx
    rcases List.mem_cons.mp hx with rfl | hx
    · exact b64char_lt_128 _ (by omega)
    rcases List.mem_cons.mp hx with rfl | hx
    · exact b64char_lt_128 _ (by omega)
    rcases List.mem_cons.mp hx with rfl | hx
    · omega
    rcases List.mem_cons.mp hx with rfl | hx
    · omega
    cases hx
  | case3 a b =>
    have ha : a < 256 := h a (by simp)
    have hb : b < 256 := h b (by simp)
    simp only [b64encode]
    intro x hx
    rcases List.mem_cons.mp hx with rfl | hx
    · exact b64char_lt_128 _ (by omega)
    rcases List.mem_cons.mp hx with rfl | hx
    · exact b64char_lt_128 _ (by omega)
    rcases List.mem_cons.mp hx with rfl | hx
    · exact b64char_lt_128 _ (by omega)
    rcases List.mem_cons.mp hx with rfl | hx
    · omega
    cases hx
  | case4 a b c rest ih =>
    have ha : a < 256 := h a (by simp)
    have hb : b < 256 := h b (by simp)
    have hc : c < 256 := h c (by simp)
    have hrest : ∀ x ∈ rest, x < 256 := fun x hx => h x (by simp [hx])
    simp only [b64encode]
    intro x hx
    rcases List.mem_cons.mp hx with rfl | hx
    · exact b64char_lt_128 _ (by omega)
    rcases List.mem_cons.mp hx with rfl | hx
    · exact b64char_lt_128 _ (by omega)
    rcases List.mem_cons.mp hx with rfl | hx
    · exact b64char_lt_128 _ (by omega)
    rcases List.mem_cons.mp hx with rfl | hx
    · exact b64char_lt_128 _ (by omega)
    exact ih hrest x hx

theorem b64_decode_encode (bs : Bytes) (h : ∀ x ∈ bs, x < 256) :
    b64decodePy (b64encode bs) = Except.ok bs := by
  unfold b64decodePy
  rw [if_pos]
  · simpa using a2b_b64encode bs h []
  · rw [List.all_eq_true]
    intro x hx
    rw [decide_eq_true_eq]
    exact b64encode_lt_128 bs h x hx

/-! ## C1: upload/download round-trip fidelity -/

/-- C1 counterexample: uploading the base64 payload `QQ==` (the single byte
`0x41`) with `is_binary = true` and then downloading the same path yields
the content as the text `A` with `is_binary = false` — the downloaded
content does not equal the original base64 string and the binary flag is
not preserved, because the stored bytes happen to be valid UTF-8. -/
theorem binary_roundtrip_counterexample :
    b64decodePy (pstr "QQ==") = Except.ok [65] ∧
    upload_workspace_file clientRT (pstr "/f") (pstr "QQ==") true true none =
      [("path", Value.str (pstr "/f")), ("size_bytes", Value.nat 1),
       ("overwrite", Value.bool true), ("language", Value.null),
       ("success", Value.bool true)] ∧
    clientRT.workspace_download (pstr "/f") = Except.ok [65] ∧
    download_workspace_file clientRT (pstr "/f") =
      [("path", Value.str (pstr "/f")), ("content", Value.str (pstr "A")),
       ("is_binary", Value.bool false), ("size_bytes", Value.nat 1),
       ("success", Value.bool true)] ∧
    pstr "A" ≠ pstr "QQ==" :=
  ⟨rfl, rfl, rfl, rfl, by decide⟩

/-- C1 (amended): for an upload whose content decodes to bytes `bs` (per
the binary flag) followed by a download of the same path returning those
stored bytes: the upload succeeds echoing `bs.length`; the downloaded
`size_bytes` equals `bs.length`; for `is_binary = false` the downloaded
content equals the original UTF-8 text with flag false; for
`is_binary = true` the downloaded content again denotes exactly the bytes
`bs` under its reported flag (though the flag may come back false, and the
content as the decoded text, when `bs` happens to be valid UTF-8). -/
theorem upload_download_roundtrip (w : WorkspaceClient) (path content : PyStr)
    (ib ow : Bool) (lang : Option PyStr) (bs : Bytes)
    (hbytes : contentToBytes ib content = Except.ok bs)
    (hlt : ∀ x ∈ bs, x < 256)
    (hup : w.workspace_upload path bs (pstr "SOURCE") (languageEnumOf lang) ow =
      Except.ok ())
    (hdl : w.workspace_download path = Except.ok bs) :
    upload_workspace_file w path content ib ow lang =
      [("path", Value.str path), ("size_bytes", Value.nat bs.length),
       ("overwrite", Value.bool ow), ("language", optStrVal lang),
       ("success", Value.bool true)] ∧
    getKey (download_workspace_file w path) "size_bytes" =
      some (Value.nat bs.length) ∧
    (ib = false →
      download_workspace_file w path =
        [("path", Value.str path), ("content", Value.str content),
         ("is_binary", Value.bool false), ("size_bytes", Value.nat bs.length),
         ("success", Value.bool true)]) ∧
    (ib = true →
      ∃ content2 flag2,
        getKey (download_workspace_file w path) "content" =
          some (Value.str content2) ∧
        getKey (download_workspace_file w path) "is_binary" =
          some (Value.bool flag2) ∧
        contentToBytes flag2 content2 = Except.ok bs) := by
  have hdlsome : ∀ t, utf8Decode bs = some t →
      download_workspace_file w path =
        [("path", Value.str path), ("content", Value.str t),
         ("is_binary", Value.bool false), ("size_bytes", Value.nat bs.length),
         ("success", Value.bool true)] := by
    intro t ht
    simp only [download_workspace_file, hdl, ht]
  have hdlnone : utf8Decode bs = none →
      download_workspace_file w path =
        [("path", Value.str path), ("content", Value.str (b64encode bs)),
         ("is_binary", Value.bool true), ("size_bytes", Value.nat bs.length),
         ("success", Value.bool true)] := by
    intro ht
    simp only [download_workspace_file, hdl, ht]
  refine ⟨?_, ?_, ?_, ?_⟩
  · simp only [upload_workspace_file, hbytes, hup]
  · cases ht : utf8Decode bs with
    | none => rw [hdlnone ht]; rfl
    | some t => rw [hdlsome t ht]; rfl
  · intro hib
    subst hib
    have henc : utf8EncodeE content = Except.ok bs := by
      simpa only [contentToBytes, Bool.false_eq_true, if_neg] using hbytes
    unfold utf8EncodeE at henc
    split at henc
    · next hv =>
      have hbs : utf8Encode content = bs := Except.ok.inj henc
      have hdec : utf8Decode bs = some content := by
        rw [← hbs]
        exact utf8_decode_encode content hv
      exact hdlsome content hdec
    · exact Except.noConfusion henc
  · intro hib
    subst hib
    have hb64 : b64decodePy content = Except.ok bs := by
      simpa only [contentToBytes, if_pos] using hbytes
    cases ht : utf8Decode bs with
    | some t =>
      refine ⟨t, false, ?_, ?_, ?_⟩
      · rw [hdlsome t ht]; rfl
      · rw [hdlsome t ht]; rfl
      · obtain ⟨henc, hv⟩ := utf8_encode_decode bs t ht
        simp only [contentToBytes, Bool.false_eq_true, if_neg]
        unfold utf8EncodeE
        rw [if_pos hv, henc]
        rfl
    | none =>
      refine ⟨b64encode bs, true, ?_, ?_, ?_⟩
      · rw [hdlnone ht]; rfl
      · rw [hdlnone ht]; rfl
      · simp only [contentToBytes, if_pos]
        exact b64_decode_encode bs hlt

/-- C1 witness: the binary payload `/w==` (the single byte `0xFF`, not
valid UTF-8) uploaded and downloaded through `clientBin`. -/
theorem upload_download_roundtrip_witness :
    upload_workspace_file clientBin (pstr "/g") (pstr "/w==") true true none =
      [("path", Value.str (pstr "/g")), ("size_bytes", Value.nat 1),
       ("overwrite", Value.bool true), ("language", Value.null),
       ("success", Value.bool true)] ∧
    getKey (download_workspace_file clientBin (pstr "/g")) "size_bytes" =
      some (Value.nat 1) ∧
    (true = false →
      download_workspace_file clientBin (pstr "/g") =
        [("path", Value.str (pstr "/g")), ("content", Value.str (pstr "/w==")),
         ("is_binary", Value.bool false), ("size_bytes", Value.nat 1),
         ("success", Value.bool true)]) ∧
    (true = true →
      ∃ content2 flag2,
        getKey (download_workspace_file clientBin (pstr "/g")) "content" =
          some (Value.str content2) ∧
        getKey (download_workspace_file clientBin (pstr "/g")) "is_binary" =
          some (Value.bool flag2) ∧
        contentToBytes flag2 content2 = Except.ok [255]) :=
  upload_download_roundtrip clientBin (pstr "/g") (pstr "/w==") true true none
    [255] rfl (by decide) rfl rfl
